import Mathlib

set_option maxHeartbeats 1000000

/-- X-axis mode of a chart.  The Python program stores the strings
`step` and `time` in `x_modes`; these are the only two values ever
assigned (`__init__` fills the list with `step`, and `on_label_click`
maps each of the two values to the other), so the mode is modelled as a
two-element type. -/
inductive XMode where
  | step
  | time
  deriving DecidableEq, Repr

/-- ASCII whitespace, the characters matched by the regex class `\s`
on these log lines.  (Python's `\s` also matches some further Unicode
whitespace, which never occurs in the ASCII log files being scraped.) -/
def isPySpace (c : Char) : Bool :=
  c == ' ' || c == '\t' || c == '\n' || c == '\r' || c == '\x0b' || c == '\x0c'

/-- The characters matched by the regex class `[0-9E\+\-\.]` used for the
five numeric fields of `parse_log`'s pattern. -/
def isNumChar (c : Char) : Bool :=
  c.isDigit || c == 'E' || c == '+' || c == '-' || c == '.'

/-- One element of the compiled regular expression of `parse_log`
(`src/NekMonitor.py`, line 104).  The pattern is a plain sequence of
literals and character classes: `lit s` is a literal string, and
`cls c min1 grp` is a character class `c` under `+` (when `min1` is
true) or `*` (when `min1` is false), wrapped in capture group number
`g` when `grp = some g`. -/
inductive RElem where
  | lit (s : List Char)
  | cls (c : Char → Bool) (min1 : Bool) (grp : Option Nat)

/-- The compiled pattern of `parse_log`:
`Step\s+(\d+),\s*t=\s*([0-9E\+\-\.]+),\s*DT=\s*([0-9E\+\-\.]+),\s*C=\s*([0-9E\+\-\.]+)\s*([0-9E\+\-\.]+)\s*([0-9E\+\-\.]+)`. -/
def nekPattern : List RElem :=
  [ .lit ['S', 't', 'e', 'p'],
    .cls isPySpace true none,
    .cls Char.isDigit true (some 1),
    .lit [','],
    .cls isPySpace false none,
    .lit ['t', '='],
    .cls isPySpace false none,
    .cls isNumChar true (some 2),
    .lit [','],
    .cls isPySpace false none,
    .lit ['D', 'T', '='],
    .cls isPySpace false none,
    .cls isNumChar true (some 3),
    .lit [','],
    .cls isPySpace false none,
    .lit ['C', '='],
    .cls isPySpace false none,
    .cls isNumChar true (some 4),
    .cls isPySpace false none,
    .cls isNumChar true (some 5),
    .cls isPySpace false none,
    .cls isNumChar true (some 6) ]

/-- Backtracking matcher for a sequence of pattern elements, anchored at
the start of `input`; it need not consume all of `input`.  A character
class under `+` or `*` is greedy: the longest possible run is tried
first and shrunk one character at a time on failure, which is exactly
the backtracking order of Python's `re` engine on such patterns.  On
success the returned list holds the captured groups `(number, text)` in
pattern order. -/
def matchSeq : List RElem → List Char → Option (List (Nat × List Char))
  | [] => fun _ => some []
  | .lit s :: rest => fun input =>
      if s.isPrefixOf input then matchSeq rest (input.drop s.length) else none
  | .cls c min1 grp :: rest => fun input =>
      let maxRun := (input.takeWhile c).length
      let lo := if min1 then 1 else 0
      (List.range (maxRun + 1)).findSome? fun j =>
        let k := maxRun - j
        if k < lo then none
        else (matchSeq rest (input.drop k)).map fun caps =>
          match grp with
          | some g => (g, input.take k) :: caps
          | none => caps

/-- `re.search` of the compiled pattern on one line: the pattern is
tried at every start position from left to right and the first
successful match is returned (`pattern.search(line)` on line 108). -/
def reSearch : List Char → Option (List (Nat × List Char))
  | [] => matchSeq nekPattern []
  | l :: rest =>
      match matchSeq nekPattern (l :: rest) with
      | some caps => some caps
      | none => reSearch rest

/-- `m.group(g)` of a match: the text of capture group `g`. -/
def reGroup (caps : List (Nat × List Char)) (g : Nat) : List Char :=
  match caps.find? (fun p => p.fst == g) with
  | some p => p.snd
  | none => []

/-- Numeric value of a digit string. -/
def natOfDigits (ds : List Char) : Nat :=
  ds.foldl (fun n c => 10 * n + (c.toNat - '0'.toNat)) 0

/-- Python's `int(s)` restricted to the strings reachable here: group 1
is captured by `\d+`, so `s` is a digit string whenever the regex
matched.  (`int` also strips whitespace and accepts a sign and
underscores, none of which `\d` can capture.)  Returns `none` exactly
when `int` would raise `ValueError`. -/
def pyInt? (s : List Char) : Option Int :=
  if s.isEmpty then none
  else if s.all Char.isDigit then some (natOfDigits s)
  else none

/-- Consume an optional leading sign; returns whether the sign was `-`
together with the remaining characters. -/
def takeSign : List Char → Bool × List Char
  | '+' :: r => (false, r)
  | '-' :: r => (true, r)
  | r => (false, r)

/-- Exact decimal value `sign * intpart.fracpart * 10 ^ exp` of a parsed
float literal, as a rational.  (IEEE-754 rounding of `float` is
abstracted away: the parsed values are only stored and plotted, never
compared or computed with, so only acceptance and magnitude matter.) -/
def floatVal (neg : Bool) (ip fp : List Char) (e : Int) : ℚ :=
  (if neg then -1 else 1) *
    ((natOfDigits ip : ℚ) + (natOfDigits fp : ℚ) / 10 ^ fp.length) * 10 ^ e

/-- Parse the optional exponent part `[eE][+-]?digits` at the end of a
float literal and finish the value. -/
def floatExp (neg : Bool) (ip fp : List Char) : List Char → Option ℚ
  | [] => some (floatVal neg ip fp 0)
  | e :: r =>
      if e == 'e' || e == 'E' then
        let (eneg, r1) := takeSign r
        let ed := r1.takeWhile Char.isDigit
        let r2 := r1.drop ed.length
        if ed.isEmpty || !r2.isEmpty then none
        else some (floatVal neg ip fp
          (if eneg then -(natOfDigits ed : Int) else (natOfDigits ed : Int)))
      else none

/-- Python's `float(s)` restricted to the strings reachable from the
class `[0-9E\+\-\.]`: an optional sign, then digits with an optional
decimal point (at least one digit on one side of the point), then an
optional exponent.  (`float` also strips whitespace and accepts `inf`,
`nan` and underscores, none of which the class can capture.)  Returns
`none` exactly when `float` would raise `ValueError`. -/
def pyFloat? (s : List Char) : Option ℚ :=
  let (neg, r1) := takeSign s
  let ip := r1.takeWhile Char.isDigit
  let r2 := r1.drop ip.length
  match r2 with
  | '.' :: r3 =>
      let fp := r3.takeWhile Char.isDigit
      let r4 := r3.drop fp.length
      if ip.isEmpty && fp.isEmpty then none
      else floatExp neg ip fp r4
  | _ => if ip.isEmpty then none else floatExp neg ip [] r2

/-- The six numeric values extracted from one matched line, in the
order the six `append` calls of `parse_log` produce them
(lines 110-115). -/
structure RowVals where
  step : Int
  t : ℚ
  dt : ℚ
  c : ℚ
  totalTime : ℚ
  stepTime : ℚ
  deriving DecidableEq, Repr

/-- Convert the six captured groups of a match as lines 110-115 do:
`int` on group 1 and `float` on groups 2-6, in that order; `none` when
some conversion raises `ValueError`. -/
def convCapts (caps : List (Nat × List Char)) : Option RowVals := do
  let st ← pyInt? (reGroup caps 1)
  let tv ← pyFloat? (reGroup caps 2)
  let dtv ← pyFloat? (reGroup caps 3)
  let cv ← pyFloat? (reGroup caps 4)
  let tot ← pyFloat? (reGroup caps 5)
  let stp ← pyFloat? (reGroup caps 6)
  pure ⟨st, tv, dtv, cv, tot, stp⟩

/-- The six values of one line, when the pattern matches and every
conversion succeeds. -/
def lineVal (l : List Char) : Option RowVals :=
  (reSearch l).bind convCapts

/-- The six parallel lists built by `parse_log`. -/
structure ParseResult where
  steps : List Int
  times : List ℚ
  dts : List ℚ
  cfls : List ℚ
  total_times : List ℚ
  step_times : List ℚ
  deriving DecidableEq, Repr

/-- The six empty lists (line 103). -/
def emptyResult : ParseResult :=
  ⟨[], [], [], [], [], []⟩

/-- Append one row of values to the six lists (the six `append` calls
of lines 110-115). -/
def pushRow (r : ParseResult) (v : RowVals) : ParseResult :=
  ⟨r.steps ++ [v.step], r.times ++ [v.t], r.dts ++ [v.dt],
    r.cfls ++ [v.c], r.total_times ++ [v.totalTime],
    r.step_times ++ [v.stepTime]⟩

/-- The loop of `parse_log` (lines 107-115): each line is searched with
the pattern; a non-matching line is skipped, a matching line has its
six groups converted and appended.  A failing conversion raises
`ValueError`, which `parse_log` does not catch, so the whole call
aborts with an error (the partially built local lists are discarded
with the stack frame). -/
def processLines : List (List Char) → ParseResult → Except Unit ParseResult
  | [], acc => .ok acc
  | l :: ls, acc =>
      match reSearch l with
      | none => processLines ls acc
      | some caps =>
          match convCapts caps with
          | none => .error ()
          | some v => processLines ls (pushRow acc v)

/-- `parse_log` (lines 102-118).  The file is modelled as `none` when
absent (`open` raises `FileNotFoundError`, which is caught, giving the
six empty lists) and as `some lines` when present.  An uncaught
`ValueError` from a conversion is the `.error` case. -/
def parse_log : Option (List (List Char)) → Except Unit ParseResult
  | none => .ok emptyResult
  | some ls => processLines ls emptyResult

/-- The mutable state of the `NekMonitor` widget that the monitored
behaviour depends on: the two timestamps, the six parallel data lists
and the five per-chart x-axis modes.  Timestamps and modification
times are modelled as exact rationals (Python uses floats, but no
claim touches rounding).  `x_modes` is a Python list of fixed length
5, indexed and assigned in place, modelled as a function from
`Fin 5`. -/
structure MonitorState where
  last_file_mod : ℚ
  last_update_time : ℚ
  steps : List Int
  times : List ℚ
  dts : List ℚ
  cfls : List ℚ
  total_times : List ℚ
  step_times : List ℚ
  x_modes : Fin 5 → XMode

/-- The state built by `__init__` (lines 27-50): `last_file_mod` is the
file's modification time, or `0` when `os.path.getmtime` raises
`OSError` (modelled by `mtime = none`); `last_update_time` is the
current wall-clock time; the six lists are empty and all five charts
start in `step` mode. -/
def initState (mtime : Option ℚ) (now : ℚ) : MonitorState :=
  { last_file_mod := mtime.getD 0
    last_update_time := now
    steps := []
    times := []
    dts := []
    cfls := []
    total_times := []
    step_times := []
    x_modes := fun _ => XMode.step }

/-- `poll_interval_ms` (line 31). -/
def poll_interval_ms : ℚ := 1000

/-- The outcome of one timer tick (`update_data`): the new widget
state, whether the `Update` LED was flashed green, whether the `Jam`
LED was flashed red, and whether an uncaught exception propagated out
of `update_data` (in which case the six lists still hold their old
values, since line 134 never assigned). -/
structure TickResult where
  state : MonitorState
  update_flashed : Bool
  jam_flashed : Bool
  raised : Bool

/-- The simultaneous assignment of line 134: the six instance lists
are replaced wholesale by the six lists `parse_log` returned. -/
def setLists (s : MonitorState) (r : ParseResult) : MonitorState :=
  { s with
      steps := r.steps
      times := r.times
      dts := r.dts
      cfls := r.cfls
      total_times := r.total_times
      step_times := r.step_times }

/-- `update_data` (lines 120-135), one timer tick.  Inputs from the
environment: `mtime` is `os.path.getmtime` of the log path (`none`
when it raises `OSError`, in which case `mod = 0`), `now` is
`time.time()`, and `file` is the current content of the log file
(`none` when absent).  The literal `1.1` of line 130 is modelled as
the exact rational `11/10`; no claim depends on its floating-point
rounding. -/
def update_data (s : MonitorState) (mtime : Option ℚ) (now : ℚ)
    (file : Option (List (List Char))) : TickResult :=
  let mod := mtime.getD 0
  let updFlash : Bool := decide (s.last_file_mod < mod)
  let lfm := if s.last_file_mod < mod then mod else s.last_file_mod
  let jamFlash : Bool := decide (poll_interval_ms / 1000 * (11 / 10) < now - s.last_update_time)
  let s1 := { s with last_file_mod := lfm, last_update_time := now }
  match parse_log file with
  | .error _ => ⟨s1, updFlash, jamFlash, true⟩
  | .ok r => ⟨setLists s1 r, updFlash, jamFlash, false⟩

/-- The toggle of line 99: `'time' if self.x_modes[idx]=='step' else 'step'`. -/
def xToggle : XMode → XMode
  | .step => .time
  | .time => .step

/-- `on_label_click` (lines 96-100) in the case where the clicked
artist is the x-axis label of chart `idx` (the five labels are rebuilt
by every `update_plots`, so `idx` ranges over `Fin 5`); the mode of
that chart is toggled in place.  The subsequent `update_plots` call
redraws but changes none of the modelled state. -/
def on_label_click (s : MonitorState) (idx : Fin 5) : MonitorState :=
  { s with x_modes := Function.update s.x_modes idx (xToggle (s.x_modes idx)) }

/-- The chart titles of line 143. -/
def titles : List String :=
  ["Solution Time vs Step", "Time Step (DT)", "CFL", "Total Wall Time", "Step Wall Time"]

/-- The y-axis labels of line 144. -/
def ylabels : List String :=
  ["Solution Time", "DT", "CFL", "Total Wall Time", "Step Wall Time"]

/-- `data_sets` of line 145. -/
def data_sets (s : MonitorState) : List (List ℚ) :=
  [s.times, s.dts, s.cfls, s.total_times, s.step_times]

/-- The step numbers as plotted values (matplotlib plots the integer
steps on a real axis). -/
def stepsQ (s : MonitorState) : List ℚ :=
  s.steps.map (fun k => (k : ℚ))

/-- What one subplot displays after a redraw: the plotted x and y data
and the axis labels and title. -/
structure PlotSpec where
  x : List ℚ
  y : List ℚ
  xlabel : String
  ylabel : String
  title : String
  deriving DecidableEq, Repr

/-- The body of the redraw loop of `update_plots` (lines 147-163) for
chart `i`: chart 0 swaps both axes when its mode is `time`, charts 1-4
keep `data_sets[i]` on y and only switch the x data. -/
def chart_spec (s : MonitorState) (i : Fin 5) : PlotSpec :=
  let title := titles.get ⟨i.val, Nat.lt_of_lt_of_eq i.isLt rfl⟩
  if i.val = 0 then
    match s.x_modes i with
    | .step =>
        { x := stepsQ s, y := s.times, xlabel := "Step",
          ylabel := "Solution Time", title := title }
    | .time =>
        { x := s.times, y := stepsQ s, xlabel := "Solution Time",
          ylabel := "Step", title := title }
  else
    let ydata := (data_sets s).get ⟨i.val, Nat.lt_of_lt_of_eq i.isLt rfl⟩
    let yl := ylabels.get ⟨i.val, Nat.lt_of_lt_of_eq i.isLt rfl⟩
    match s.x_modes i with
    | .step =>
        { x := stepsQ s, y := ydata, xlabel := "Step", ylabel := yl, title := title }
    | .time =>
        { x := s.times, y := ydata, xlabel := "Solution Time", ylabel := yl, title := title }

/-- `update_plots` (lines 141-165): the five subplots redrawn in
order.  Drawing itself (`ax.plot`, `canvas.draw`) is GUI output with
no further observable state. -/
def update_plots (s : MonitorState) : List PlotSpec :=
  (List.finRange 5).map (chart_spec s)

/-- A well-formed log line, used as a concrete test vector. -/
def goodLine : List Char :=
  "Step 1, t= 2.0, DT= 0.5, C= 0.1 3.0 0.2".toList

/-- The captures the pattern produces on `goodLine`. -/
def goodCaps : List (Nat × List Char) :=
  [(1, ['1']), (2, ['2', '.', '0']), (3, ['0', '.', '5']),
    (4, ['0', '.', '1']), (5, ['3', '.', '0']), (6, ['0', '.', '2'])]

/-- The six lists `parse_log` builds from the single line `goodLine`,
with the float values written in the `floatVal` form the parser
produces (plain values: steps `[1]`, times `[2]`, dts `[1/2]`, cfls
`[1/10]`, total times `[3]`, step times `[1/5]`). -/
def goodResult : ParseResult :=
  ⟨[1], [floatVal false ['2'] ['0'] 0], [floatVal false ['0'] ['5'] 0],
    [floatVal false ['0'] ['1'] 0], [floatVal false ['3'] ['0'] 0],
    [floatVal false ['0'] ['2'] 0]⟩

/-- A line the pattern matches with group 2 equal to the single
character `.`, which `float` rejects with `ValueError`. -/
def dotLine : List Char :=
  "Step 1, t= ., DT= 1.0, C= 0.5 2.0 3.0".toList

/-- A line the pattern matches with group 2 equal to the single
character `E`, which `float` rejects with `ValueError`. -/
def eLine : List Char :=
  "Step 2, t= E, DT= 3, C= 4 5 6".toList

/-- A concrete widget state holding one stale row in each list, used
as a test vector. -/
def staleState : MonitorState :=
  { initState none 0 with
      steps := [5]
      times := [7]
      dts := [7]
      cfls := [7]
      total_times := [7]
      step_times := [7] }

/-- A concrete widget state with every chart in `time` mode, used as a
test vector. -/
def timeState : MonitorState :=
  { initState none 0 with x_modes := fun _ => XMode.time }

/-- The six lists of a widget state all have one common length. -/
def listsAligned (s : MonitorState) : Prop :=
  s.steps.length = s.times.length ∧ s.times.length = s.dts.length ∧
  s.dts.length = s.cfls.length ∧ s.cfls.length = s.total_times.length ∧
  s.total_times.length = s.step_times.length

/-- The six lists of a `parse_log` result all have one common length. -/
def resultAligned (r : ParseResult) : Prop :=
  r.steps.length = r.times.length ∧ r.times.length = r.dts.length ∧
  r.dts.length = r.cfls.length ∧ r.cfls.length = r.total_times.length ∧
  r.total_times.length = r.step_times.length

/-- Taking at most the `takeWhile` run keeps every taken element inside
the class. -/
theorem all_take_of_le_takeWhile_length {α} (c : α → Bool) :
    ∀ (l : List α) (k : Nat), k ≤ (l.takeWhile c).length →
      (l.take k).all c = true := by
  intro l
  induction l with
  | nil =>
      intro k hk
      simp only [List.takeWhile_nil, List.length_nil, Nat.le_zero] at hk
      subst hk
      simp
  | cons a t ih =>
      intro k hk
      by_cases hca : c a = true
      · cases k with
        | zero => simp
        | succ k =>
            rw [List.takeWhile_cons, if_pos hca] at hk
            simp only [List.length_cons, Nat.succ_le_succ_iff] at hk
            simp only [List.take_succ_cons, List.all_cons, hca, Bool.true_and]
            exact ih k hk
      · rw [List.takeWhile_cons, if_neg hca] at hk
        simp only [List.length_nil, Nat.le_zero] at hk
        subst hk
        simp

/-- The identifiers of the capture groups of a pattern, in order. -/
def capIds : List RElem → List Nat
  | [] => []
  | .lit _ :: r => capIds r
  | .cls _ _ none :: r => capIds r
  | .cls _ _ (some g) :: r => g :: capIds r

/-- Every group captured by a successful `matchSeq` comes from a
character class of the pattern carrying that group number: its text
lies in the class throughout, and is nonempty when the class was under
`+`. -/
theorem matchSeq_caps :
    ∀ (p : List RElem) (input : List Char) (caps : List (Nat × List Char)),
      matchSeq p input = some caps →
      ∀ g s, (g, s) ∈ caps →
        ∃ c m, RElem.cls c m (some g) ∈ p ∧ s.all c = true ∧ (m = true → s ≠ []) := by
  intro p
  induction p with
  | nil =>
      intro input caps h g s hmem
      simp only [matchSeq, Option.some.injEq] at h
      subst h
      simp at hmem
  | cons e rest ih =>
      intro input caps h g s hmem
      cases e with
      | lit str =>
          simp only [matchSeq] at h
          split at h
          · obtain ⟨c, m, hin, hall, hne⟩ := ih _ _ h g s hmem
            exact ⟨c, m, List.mem_cons_of_mem _ hin, hall, hne⟩
          · exact absurd h (by simp)
      | cls c min1 grp =>
          simp only [matchSeq] at h
          obtain ⟨j, hj, hfj⟩ := List.exists_of_findSome?_eq_some h
          rcases Nat.lt_or_ge ((input.takeWhile c).length - j)
              (if min1 = true then 1 else 0) with hlt | hk
          · rw [if_pos hlt] at hfj
            exact absurd hfj (by simp)
          · rw [if_neg (Nat.not_lt.mpr hk)] at hfj
            rw [Option.map_eq_some'] at hfj
            obtain ⟨caps', hms, hEq⟩ := hfj
            cases grp with
            | none =>
                subst hEq
                obtain ⟨c', m', hin, hall, hne⟩ := ih _ _ hms g s hmem
                exact ⟨c', m', List.mem_cons_of_mem _ hin, hall, hne⟩
            | some g0 =>
                subst hEq
                rcases List.mem_cons.mp hmem with hhead | htail
                · simp only [Prod.mk.injEq] at hhead
                  obtain ⟨rfl, rfl⟩ := hhead
                  refine ⟨c, min1, List.mem_cons_self .., ?_, ?_⟩
                  · exact all_take_of_le_takeWhile_length c input _ (Nat.sub_le _ _)
                  · intro hm
                    subst hm
                    simp only [if_pos rfl] at hk
                    have h1 : 1 ≤ (input.takeWhile c).length - j := hk
                    have hlen : (input.takeWhile c).length ≤ input.length :=
                      (List.takeWhile_prefix c).length_le
                    apply List.ne_nil_of_length_pos
                    rw [List.length_take]
                    exact Nat.lt_of_lt_of_le h1 (Nat.le_min.mpr
                      ⟨Nat.le_refl _, Nat.le_trans (Nat.sub_le _ _) hlen⟩)
                · obtain ⟨c', m', hin, hall, hne⟩ := ih _ _ hms g s htail
                  exact ⟨c', m', List.mem_cons_of_mem _ hin, hall, hne⟩

/-- A successful `matchSeq` captures exactly the groups of the
pattern, in pattern order. -/
theorem matchSeq_ids :
    ∀ (p : List RElem) (input : List Char) (caps : List (Nat × List Char)),
      matchSeq p input = some caps → caps.map Prod.fst = capIds p := by
  intro p
  induction p with
  | nil =>
      intro input caps h
      simp only [matchSeq, Option.some.injEq] at h
      subst h
      rfl
  | cons e rest ih =>
      intro input caps h
      cases e with
      | lit str =>
          simp only [matchSeq] at h
          split at h
          · exact ih _ _ h
          · exact absurd h (by simp)
      | cls c min1 grp =>
          simp only [matchSeq] at h
          obtain ⟨j, hj, hfj⟩ := List.exists_of_findSome?_eq_some h
          rcases Nat.lt_or_ge ((input.takeWhile c).length - j)
              (if min1 = true then 1 else 0) with hlt | hk
          · rw [if_pos hlt] at hfj
            exact absurd hfj (by simp)
          · rw [if_neg (Nat.not_lt.mpr hk)] at hfj
            rw [Option.map_eq_some'] at hfj
            obtain ⟨caps', hms, hEq⟩ := hfj
            cases grp with
            | none =>
                subst hEq
                simp only [capIds]
                exact ih _ _ hms
            | some g0 =>
                subst hEq
                simp only [capIds, List.map_cons]
                exact congrArg (g0 :: ·) (ih _ _ hms)

/-- A successful search is a successful anchored match on some suffix
of the line. -/
theorem reSearch_matchSeq :
    ∀ (l : List Char) (caps : List (Nat × List Char)),
      reSearch l = some caps → ∃ t, matchSeq nekPattern t = some caps := by
  intro l
  induction l with
  | nil =>
      intro caps h
      exact ⟨[], h⟩
  | cons a t ih =>
      intro caps h
      simp only [reSearch] at h
      cases hm : matchSeq nekPattern (a :: t) with
      | some caps' =>
          rw [hm] at h
          cases h
          exact ⟨a :: t, hm⟩
      | none =>
          rw [hm] at h
          exact ih caps h

/-- The capture list of any successful search of the `parse_log`
pattern lists groups 1 through 6 in order. -/
theorem reSearch_ids (l : List Char) (caps : List (Nat × List Char))
    (h : reSearch l = some caps) : caps.map Prod.fst = [1, 2, 3, 4, 5, 6] := by
  obtain ⟨t, hm⟩ := reSearch_matchSeq l caps h
  exact matchSeq_ids nekPattern t caps hm

/-- Group 1 as extracted by `m.group(1)` is one of the captures. -/
theorem reGroup_one_mem (caps : List (Nat × List Char))
    (h : caps.map Prod.fst = [1, 2, 3, 4, 5, 6]) :
    (1, reGroup caps 1) ∈ caps := by
  cases caps with
  | nil => simp at h
  | cons p rest =>
      obtain ⟨a, s⟩ := p
      simp only [List.map_cons, List.cons.injEq] at h
      obtain ⟨rfl, -⟩ := h
      simp only [reGroup, List.find?_cons]
      norm_num

/-- The only capture group numbered 1 in the pattern is `(\d+)`. -/
theorem grp1_class (c : Char → Bool) (m : Bool)
    (h : RElem.cls c m (some 1) ∈ nekPattern) : c = Char.isDigit ∧ m = true := by
  simp only [nekPattern, List.mem_cons, List.not_mem_nil, or_false] at h
  rcases h with h | h | h | h | h | h | h | h | h | h | h | h | h | h | h | h | h | h | h | h | h | h
  all_goals
    first
      | (injection h with h1 h2 h3; exact ⟨h1, h2⟩)
      | (injection h with h1 h2 h3; exact absurd h3 (by decide))
      | cases h

/-- Whenever the pattern matches a line, group 1 is a nonempty digit
string, so `int(m.group(1))` on line 110 always succeeds. -/
theorem pyInt_group1 (line : List Char) (caps : List (Nat × List Char))
    (h : reSearch line = some caps) :
    pyInt? (reGroup caps 1) = some (natOfDigits (reGroup caps 1)) := by
  obtain ⟨t, hm⟩ := reSearch_matchSeq line caps h
  have hids : caps.map Prod.fst = [1, 2, 3, 4, 5, 6] := matchSeq_ids nekPattern t caps hm
  have hmem : (1, reGroup caps 1) ∈ caps := reGroup_one_mem caps hids
  obtain ⟨c, m, hin, hall, hne⟩ := matchSeq_caps nekPattern t caps hm 1 _ hmem
  obtain ⟨rfl, rfl⟩ := grp1_class c m hin
  have hnil : reGroup caps 1 ≠ [] := hne rfl
  rw [pyInt?, if_neg (by simpa using hnil), if_pos hall]
  rfl

/-- The loop of `parse_log` on success: each of the six local lists is
the accumulator followed by the per-line extracted values, one per
matching line, in file order; non-matching lines contribute nothing. -/
theorem processLines_ok :
    ∀ (ls : List (List Char)) (acc r : ParseResult),
      processLines ls acc = .ok r →
      r.steps = acc.steps ++ (ls.filterMap lineVal).map RowVals.step ∧
      r.times = acc.times ++ (ls.filterMap lineVal).map RowVals.t ∧
      r.dts = acc.dts ++ (ls.filterMap lineVal).map RowVals.dt ∧
      r.cfls = acc.cfls ++ (ls.filterMap lineVal).map RowVals.c ∧
      r.total_times = acc.total_times ++ (ls.filterMap lineVal).map RowVals.totalTime ∧
      r.step_times = acc.step_times ++ (ls.filterMap lineVal).map RowVals.stepTime := by
  intro ls
  induction ls with
  | nil =>
      intro acc r h
      simp only [processLines, Except.ok.injEq] at h
      subst h
      simp
  | cons l t ih =>
      intro acc r h
      cases hs : reSearch l with
      | none =>
          simp only [processLines, hs] at h
          have := ih acc r h
          simpa [List.filterMap_cons, lineVal, hs] using this
      | some caps =>
          simp only [processLines, hs] at h
          cases hc : convCapts caps with
          | none =>
              simp only [hc] at h
              exact absurd h (by simp)
          | some v =>
              simp only [hc] at h
              have := ih (pushRow acc v) r h
              simp only [pushRow] at this
              obtain ⟨h1, h2, h3, h4, h5, h6⟩ := this
              have hlv : lineVal l = some v := by
                simp [lineVal, hs, hc]
              simp only [List.filterMap_cons, hlv, List.map_cons]
              refine ⟨?_, ?_, ?_, ?_, ?_, ?_⟩ <;>
                simp only [h1, h2, h3, h4, h5, h6, List.append_assoc,
                  List.singleton_append]

/-- `parse_log` on a present file, when it returns: the six lists it
returns are exactly the per-line extractions in file order. -/
theorem parse_log_lists (lines : List (List Char)) (r : ParseResult)
    (h : parse_log (some lines) = .ok r) :
    r.steps = (lines.filterMap lineVal).map RowVals.step ∧
    r.times = (lines.filterMap lineVal).map RowVals.t ∧
    r.dts = (lines.filterMap lineVal).map RowVals.dt ∧
    r.cfls = (lines.filterMap lineVal).map RowVals.c ∧
    r.total_times = (lines.filterMap lineVal).map RowVals.totalTime ∧
    r.step_times = (lines.filterMap lineVal).map RowVals.stepTime := by
  have := processLines_ok lines emptyResult r h
  simpa [emptyResult] using this

/-- When the loop of `parse_log` finishes normally, every matched
line's captures passed all six conversions. -/
theorem processLines_ok_lines_convert :
    ∀ (ls : List (List Char)) (acc r : ParseResult),
      processLines ls acc = .ok r →
      ∀ l ∈ ls, ∀ caps, reSearch l = some caps → (convCapts caps).isSome = true := by
  intro ls
  induction ls with
  | nil =>
      intro acc r h l hl
      simp at hl
  | cons a t ih =>
      intro acc r h l hl caps hcaps
      cases hs : reSearch a with
      | none =>
          simp only [processLines, hs] at h
          rcases List.mem_cons.mp hl with rfl | hl'
          · rw [hs] at hcaps
            cases hcaps
          · exact ih acc r h l hl' caps hcaps
      | some caps' =>
          simp only [processLines, hs] at h
          cases hc : convCapts caps' with
          | none =>
              simp only [hc] at h
              exact absurd h (by simp)
          | some v =>
              simp only [hc] at h
              rcases List.mem_cons.mp hl with rfl | hl'
              · rw [hs, Option.some.injEq] at hcaps
                subst hcaps
                simp [hc]
              · exact ih _ r h l hl' caps hcaps

/-- When every matched line's captures convert, the loop of
`parse_log` finishes normally. -/
theorem processLines_ok_of_convertible :
    ∀ (ls : List (List Char)) (acc : ParseResult),
      (∀ l ∈ ls, ∀ caps, reSearch l = some caps → (convCapts caps).isSome = true) →
      ∃ r, processLines ls acc = .ok r := by
  intro ls
  induction ls with
  | nil =>
      intro acc _
      exact ⟨acc, rfl⟩
  | cons a t ih =>
      intro acc hconv
      cases hs : reSearch a with
      | none =>
          obtain ⟨r, hr⟩ := ih acc (fun l hl => hconv l (List.mem_cons_of_mem _ hl))
          exact ⟨r, by simp only [processLines, hs]; exact hr⟩
      | some caps =>
          have hsome := hconv a (List.mem_cons_self ..) caps hs
          cases hc : convCapts caps with
          | none =>
              rw [hc] at hsome
              exact absurd hsome (by simp)
          | some v =>
              obtain ⟨r, hr⟩ :=
                ih (pushRow acc v) (fun l hl => hconv l (List.mem_cons_of_mem _ hl))
              exact ⟨r, by simp only [processLines, hs, hc]; exact hr⟩

/-- C1 (amended): whenever `parse_log` returns normally, each of the
six returned lists holds exactly one element per line on which the
pattern matched, in file order — group 1 converted by `int` and
groups 2-6 converted by `float`, in that order — and a line on which
the pattern does not match contributes nothing; moreover every matched
line's captures passed all six conversions.  (The claim's unconditional
form is false: a matched line whose float conversion fails makes
`parse_log` raise `ValueError` and return no lists at all.) -/
theorem C1_parse_log_per_line (lines : List (List Char)) (r : ParseResult)
    (h : parse_log (some lines) = .ok r) :
    r.steps = (lines.filterMap lineVal).map RowVals.step ∧
    r.times = (lines.filterMap lineVal).map RowVals.t ∧
    r.dts = (lines.filterMap lineVal).map RowVals.dt ∧
    r.cfls = (lines.filterMap lineVal).map RowVals.c ∧
    r.total_times = (lines.filterMap lineVal).map RowVals.totalTime ∧
    r.step_times = (lines.filterMap lineVal).map RowVals.stepTime ∧
    (∀ l ∈ lines, ∀ caps, reSearch l = some caps →
      (convCapts caps).isSome = true) := by
  obtain ⟨h1, h2, h3, h4, h5, h6⟩ := parse_log_lists lines r h
  exact ⟨h1, h2, h3, h4, h5, h6, processLines_ok_lines_convert lines emptyResult r h⟩

/-- C1, counterexample to the claim as stated: the pattern matches the
single line of this file (group 2 is `E`), yet the line contributes no
element to any result list — `parse_log` raises `ValueError` because
`float('E')` fails, and returns nothing. -/
theorem C1_cex :
    (reSearch eLine).isSome = true ∧ parse_log (some [eLine]) = .error () :=
  ⟨rfl, rfl⟩

/-- C1, witness: the amended theorem applied to a concrete two-line
file (one matching line, one non-matching line). -/
theorem C1_witness :
    parse_log (some [goodLine, ['x']]) = .ok goodResult ∧
    goodResult.steps = (([goodLine, ['x']]).filterMap lineVal).map RowVals.step :=
  ⟨by rfl, (C1_parse_log_per_line [goodLine, ['x']] goodResult (by rfl)).1⟩

/-- C2: the six parallel lists always have the same length — every
result `parse_log` returns (including for an absent file) is aligned,
and a tick of `update_data` keeps the six instance lists aligned. -/
theorem C2_equal_lengths :
    (∀ (file : Option (List (List Char))) (r : ParseResult),
        parse_log file = .ok r → resultAligned r) ∧
    (∀ (s : MonitorState) (mtime : Option ℚ) (now : ℚ)
        (file : Option (List (List Char))),
        listsAligned s → listsAligned (update_data s mtime now file).state) := by
  have hpl : ∀ (file : Option (List (List Char))) (r : ParseResult),
      parse_log file = .ok r → resultAligned r := by
    intro file r h
    cases file with
    | none =>
        simp only [parse_log, Except.ok.injEq] at h
        subst h
        exact ⟨rfl, rfl, rfl, rfl, rfl⟩
    | some lines =>
        obtain ⟨h1, h2, h3, h4, h5, h6⟩ := parse_log_lists lines r h
        refine ⟨?_, ?_, ?_, ?_, ?_⟩ <;> simp [h1, h2, h3, h4, h5, h6]
  refine ⟨hpl, ?_⟩
  intro s mtime now file hs
  cases hp : parse_log file with
  | error e =>
      simpa [update_data, hp, listsAligned] using hs
  | ok r =>
      have := hpl file r hp
      simpa [update_data, hp, setLists, listsAligned, resultAligned] using this

/-- C2, witness: alignment at a concrete parse result and after a
concrete tick. -/
theorem C2_witness :
    resultAligned goodResult ∧
    listsAligned (update_data (initState none 0) none 0 (some [goodLine])).state :=
  ⟨C2_equal_lengths.1 (some [goodLine]) goodResult (by rfl),
    C2_equal_lengths.2 (initState none 0) none 0 (some [goodLine])
      ⟨rfl, rfl, rfl, rfl, rfl⟩⟩

/-- C3: when the log file is absent (`open` raises
`FileNotFoundError`), `parse_log` returns six empty lists instead of
propagating; and this is the only error `parse_log` handles — an
uncaught `ValueError` from a conversion propagates out. -/
theorem C3_absent_file_empty :
    parse_log none = .ok emptyResult ∧
    ∃ lines, parse_log (some lines) = .error () :=
  ⟨rfl, [dotLine], rfl⟩

/-- C4 (amended): group 1's `int` conversion always succeeds on a
matched line (group 1 is a nonempty digit string), and `parse_log`
terminates normally on every present file all of whose matched lines
pass the six conversions.  (The claim's unconditional form is false:
groups 2-6 are captured by `[0-9E\+\-\.]+`, which admits strings such
as `.` that `float` rejects; see the counterexample.) -/
theorem C4_conversions :
    (∀ (line : List Char) (caps : List (Nat × List Char)),
        reSearch line = some caps → (pyInt? (reGroup caps 1)).isSome = true) ∧
    (∀ lines : List (List Char),
        (∀ l ∈ lines, ∀ caps, reSearch l = some caps →
          (convCapts caps).isSome = true) →
        ∃ r, parse_log (some lines) = .ok r) := by
  constructor
  · intro line caps h
    rw [pyInt_group1 line caps h]
    rfl
  · intro lines hconv
    exact processLines_ok_of_convertible lines emptyResult hconv

/-- C4, counterexample to the claim as stated: the pattern matches
`dotLine` with group 2 equal to `.`, `float('.')` raises
`ValueError`, and `parse_log` propagates it instead of returning six
lists. -/
theorem C4_cex :
    reSearch dotLine = some [(1, ['1']), (2, ['.']), (3, ['1', '.', '0']),
      (4, ['0', '.', '5']), (5, ['2', '.', '0']), (6, ['3', '.', '0'])] ∧
    pyFloat? ['.'] = none ∧
    parse_log (some [dotLine]) = .error () :=
  ⟨rfl, rfl, rfl⟩

/-- C4, witness: the amended theorem applied to a concrete matched
line and a concrete one-line file. -/
theorem C4_witness :
    (pyInt? (reGroup goodCaps 1)).isSome = true ∧
    ∃ r, parse_log (some [goodLine]) = .ok r :=
  ⟨C4_conversions.1 goodLine goodCaps rfl,
    C4_conversions.2 [goodLine] (by
      intro l hl caps hcaps
      rw [List.mem_singleton] at hl
      subst hl
      rw [show reSearch goodLine = some goodCaps from rfl, Option.some.injEq] at hcaps
      subst hcaps
      decide)⟩

/-- The concrete result of parsing `goodLine`, in plain rational form. -/
theorem goodResult_values :
    goodResult.steps = [1] ∧ goodResult.times = [2] ∧
    goodResult.dts = [1 / 2] ∧ goodResult.cfls = [1 / 10] ∧
    goodResult.total_times = [3] ∧ goodResult.step_times = [1 / 5] := by
  refine ⟨rfl, ?_, ?_, ?_, ?_, ?_⟩ <;>
    norm_num [goodResult, floatVal, natOfDigits,
      show ('1'.toNat - '0'.toNat) = 1 from rfl,
      show ('2'.toNat - '0'.toNat) = 2 from rfl,
      show ('3'.toNat - '0'.toNat) = 3 from rfl,
      show ('5'.toNat - '0'.toNat) = 5 from rfl]

/-- C5, counterexample to the claim as stated: line 134 replaces the
six lists, it does not append.  From a state whose steps list is `[5]`,
a tick on a file whose only step number is 1 leaves steps `[1]`, of
which the prior `[5]` is not a prefix. -/
theorem C5_cex :
    (update_data staleState none 0 (some [goodLine])).raised = false ∧
    ¬ staleState.steps <+:
      (update_data staleState none 0 (some [goodLine])).state.steps := by
  refine ⟨by rfl, fun hpre => ?_⟩
  have hb : List.isPrefixOf staleState.steps
      (update_data staleState none 0 (some [goodLine])).state.steps = true :=
    List.isPrefixOf_iff_prefix.mpr hpre
  exact absurd hb (by decide)

/-- C5 (amended): a tick does not append to the six in-memory lists;
it replaces them with exactly the fresh parse of the current file
contents, so the prior contents survive only when they happen to be a
prefix of the fresh parse (e.g. when the file has only grown). -/
theorem C5_replaces (s : MonitorState) (m : Option ℚ) (n : ℚ)
    (f : Option (List (List Char)))
    (h : (update_data s m n f).raised = false) :
    ∃ r, parse_log f = .ok r ∧
      (update_data s m n f).state.steps = r.steps ∧
      (update_data s m n f).state.times = r.times ∧
      (update_data s m n f).state.dts = r.dts ∧
      (update_data s m n f).state.cfls = r.cfls ∧
      (update_data s m n f).state.total_times = r.total_times ∧
      (update_data s m n f).state.step_times = r.step_times := by
  cases hp : parse_log f with
  | error e => simp [update_data, hp] at h
  | ok r =>
      refine ⟨r, rfl, ?_, ?_, ?_, ?_, ?_, ?_⟩ <;> simp [update_data, hp, setLists]

/-- C5, witness: the amended theorem at a concrete prior state and
file. -/
theorem C5_witness :
    (update_data staleState none 0 (some [goodLine])).raised = false ∧
    ∃ r, parse_log (some [goodLine]) = .ok r ∧
      (update_data staleState none 0 (some [goodLine])).state.steps = r.steps ∧
      (update_data staleState none 0 (some [goodLine])).state.times = r.times ∧
      (update_data staleState none 0 (some [goodLine])).state.dts = r.dts ∧
      (update_data staleState none 0 (some [goodLine])).state.cfls = r.cfls ∧
      (update_data staleState none 0 (some [goodLine])).state.total_times = r.total_times ∧
      (update_data staleState none 0 (some [goodLine])).state.step_times = r.step_times :=
  ⟨by rfl, C5_replaces staleState none 0 (some [goodLine]) (by rfl)⟩

/-- C6: a tick rebuilds the data from scratch: after `update_data`
returns normally the six instance lists are exactly the `parse_log` of
the current file contents, so two ticks from different prior states
(and different clocks and modification times) on the same file leave
identical list state. -/
theorem C6_rebuild (s1 s2 : MonitorState) (m1 m2 : Option ℚ) (n1 n2 : ℚ)
    (f : Option (List (List Char)))
    (h1 : (update_data s1 m1 n1 f).raised = false)
    (h2 : (update_data s2 m2 n2 f).raised = false) :
    parse_log f = .ok
      ⟨(update_data s1 m1 n1 f).state.steps,
        (update_data s1 m1 n1 f).state.times,
        (update_data s1 m1 n1 f).state.dts,
        (update_data s1 m1 n1 f).state.cfls,
        (update_data s1 m1 n1 f).state.total_times,
        (update_data s1 m1 n1 f).state.step_times⟩ ∧
    (update_data s1 m1 n1 f).state.steps = (update_data s2 m2 n2 f).state.steps ∧
    (update_data s1 m1 n1 f).state.times = (update_data s2 m2 n2 f).state.times ∧
    (update_data s1 m1 n1 f).state.dts = (update_data s2 m2 n2 f).state.dts ∧
    (update_data s1 m1 n1 f).state.cfls = (update_data s2 m2 n2 f).state.cfls ∧
    (update_data s1 m1 n1 f).state.total_times =
      (update_data s2 m2 n2 f).state.total_times ∧
    (update_data s1 m1 n1 f).state.step_times =
      (update_data s2 m2 n2 f).state.step_times := by
  cases hp : parse_log f with
  | error e => simp [update_data, hp] at h1
  | ok r =>
      refine ⟨?_, ?_, ?_, ?_, ?_, ?_, ?_⟩ <;> simp [update_data, hp, setLists]

/-- C6, witness: two ticks from different prior states, clocks and
modification times on the same file leave the same steps list. -/
theorem C6_witness :
    (update_data staleState none 0 (some [goodLine])).raised = false ∧
    (update_data (initState none 0) (some 1) 5 (some [goodLine])).raised = false ∧
    (update_data staleState none 0 (some [goodLine])).state.steps =
      (update_data (initState none 0) (some 1) 5 (some [goodLine])).state.steps :=
  ⟨by rfl, by rfl,
    (C6_rebuild staleState (initState none 0) none (some 1) 0 5 (some [goodLine])
      (by rfl) (by rfl)).2.1⟩

/-- C7: clicking the x-axis label of chart `i` toggles that chart's
mode between the two values `step` and `time`, leaves every other
chart's mode unchanged, and two consecutive clicks on the same label
restore the entire `x_modes` state (the toggle is an involution). -/
theorem C7_toggle (s : MonitorState) (i : Fin 5) :
    (on_label_click s i).x_modes i = xToggle (s.x_modes i) ∧
    (∀ j : Fin 5, j ≠ i → (on_label_click s i).x_modes j = s.x_modes j) ∧
    (on_label_click (on_label_click s i) i).x_modes = s.x_modes := by
  refine ⟨?_, ?_, ?_⟩
  · simp [on_label_click]
  · intro j hj
    simp [on_label_click, Function.update_noteq hj]
  · funext j
    by_cases hj : j = i
    · subst hj
      simp only [on_label_click, Function.update_same]
      cases s.x_modes j <;> rfl
    · simp [on_label_click, Function.update_noteq hj]

/-- C7, witness: clicking the label of chart 0 leaves chart 1's mode
unchanged. -/
theorem C7_witness :
    ((1 : Fin 5) ≠ (0 : Fin 5)) ∧
    (on_label_click (initState none 0) 0).x_modes 1 = (initState none 0).x_modes 1 :=
  ⟨by decide, (C7_toggle (initState none 0) 0).2.1 1 (by decide)⟩

/-- C8: on every tick the Jam LED is flashed red exactly when the
elapsed wall-clock time since the previous tick exceeds 1.1 times the
fixed 1000 ms poll interval — that is, more than 11/10 seconds — and
`last_update_time` is set to the current time on every tick
regardless. -/
theorem C8_jam_led (s : MonitorState) (m : Option ℚ) (n : ℚ)
    (f : Option (List (List Char))) :
    (update_data s m n f).jam_flashed =
      decide ((11 / 10 : ℚ) < n - s.last_update_time) ∧
    (update_data s m n f).state.last_update_time = n := by
  have hq : poll_interval_ms / 1000 * (11 / 10) = (11 / 10 : ℚ) := by
    norm_num [poll_interval_ms]
  cases hp : parse_log f with
  | error e => simp [update_data, hp, hq]
  | ok r => simp [update_data, hp, hq, setLists]

/-- C9: on every tick the Update LED is flashed green exactly when the
file's modification time exceeds the stored `last_file_mod`;
`last_file_mod` is overwritten with the new time exactly in that case,
hence it never decreases; and a missing file (modification time 0, the
`OSError` fallback) never triggers the flash from a nonnegative stored
time. -/
theorem C9_update_led (s : MonitorState) (m : Option ℚ) (n : ℚ)
    (f : Option (List (List Char))) :
    (update_data s m n f).update_flashed = decide (s.last_file_mod < m.getD 0) ∧
    (update_data s m n f).state.last_file_mod =
      (if s.last_file_mod < m.getD 0 then m.getD 0 else s.last_file_mod) ∧
    s.last_file_mod ≤ (update_data s m n f).state.last_file_mod ∧
    (m = none → 0 ≤ s.last_file_mod →
      (update_data s m n f).update_flashed = false) := by
  have hub : (update_data s m n f).update_flashed =
      decide (s.last_file_mod < m.getD 0) := by
    cases hp : parse_log f <;> simp [update_data, hp]
  have hlf : (update_data s m n f).state.last_file_mod =
      (if s.last_file_mod < m.getD 0 then m.getD 0 else s.last_file_mod) := by
    cases hp : parse_log f <;> simp [update_data, hp, setLists]
  refine ⟨hub, hlf, ?_, ?_⟩
  · rw [hlf]
    split
    · exact le_of_lt (by assumption)
    · exact le_refl _
  · intro hm h0
    subst hm
    rw [hub]
    simp only [Option.getD_none]
    exact decide_eq_false (not_lt.mpr h0)

/-- C9, witness: from the initial state with an absent file, the
Update LED does not flash. -/
theorem C9_witness :
    (0 : ℚ) ≤ (initState none 0).last_file_mod ∧
    (update_data (initState none 0) none 0 (some [goodLine])).update_flashed = false :=
  ⟨le_refl 0,
    (C9_update_led (initState none 0) none 0 (some [goodLine])).2.2.2 rfl (le_refl 0)⟩

/-- C10: the x-axis toggle is special on the first chart: in `time`
mode chart 0 swaps both axes (x is the solution times, y is the steps,
labels swapped), while charts 1-4 keep `dts`, `cfls`, `total_times`,
`step_times` respectively on y in either mode; every chart's x data is
the steps in `step` mode and the solution times in `time` mode. -/
theorem C10_chart_axes (s : MonitorState) :
    (s.x_modes 0 = XMode.time →
      chart_spec s 0 =
        { x := s.times, y := stepsQ s, xlabel := "Solution Time",
          ylabel := "Step", title := "Solution Time vs Step" }) ∧
    (s.x_modes 0 = XMode.step →
      chart_spec s 0 =
        { x := stepsQ s, y := s.times, xlabel := "Step",
          ylabel := "Solution Time", title := "Solution Time vs Step" }) ∧
    (chart_spec s 1).y = s.dts ∧
    (chart_spec s 2).y = s.cfls ∧
    (chart_spec s 3).y = s.total_times ∧
    (chart_spec s 4).y = s.step_times ∧
    (∀ i : Fin 5, (chart_spec s i).x =
      (if s.x_modes i = XMode.step then stepsQ s else s.times)) := by
  refine ⟨?_, ?_, ?_, ?_, ?_, ?_, ?_⟩
  · intro h
    simp [chart_spec, h, titles]
  · intro h
    simp [chart_spec, h, titles]
  · cases h : s.x_modes 1 <;> norm_num [chart_spec, h, data_sets]
  · cases h : s.x_modes 2 <;> norm_num [chart_spec, h, data_sets]
  · cases h : s.x_modes 3 <;>
      norm_num [chart_spec, h, data_sets, show ((3 : Fin 5) : Nat) = 3 from rfl]
  · cases h : s.x_modes 4 <;>
      norm_num [chart_spec, h, data_sets, show ((4 : Fin 5) : Nat) = 4 from rfl]
  · intro i
    by_cases h0 : i.val = 0 <;> cases hm : s.x_modes i <;>
      norm_num [chart_spec, h0, hm] <;> rfl

/-- C10, witness: chart 0 of a concrete all-`time` state swaps its
axes. -/
theorem C10_witness :
    timeState.x_modes 0 = XMode.time ∧
    chart_spec timeState 0 =
      { x := timeState.times, y := stepsQ timeState,
        xlabel := "Solution Time", ylabel := "Step",
        title := "Solution Time vs Step" } :=
  ⟨rfl, (C10_chart_axes timeState).1 rfl⟩
